import Mathlib

/-!
Verification development for the docker-layerize repository.

The repository computes layer-level diffs between two exported docker image
trees and later reconstructs a complete image tree from such a diff archive
plus a locally available old version.  The source contains several rewrites
of the same algorithm; the two coherent pipelines modelled here are

* the manifest-driven pipeline of `main.py` (`generate_diff` reads the layer
  sets from the two versions' manifests and `process_image` enumerates the
  required layers from the archive's `manifest.json`), and
* the diff-record-driven pipeline of `utils.py` (shared with `main_oop.py`
  and `main_old.py`): `generate_diff` reads the layer sets from the
  `blobs/sha256` directory listings and writes a `diff_<tag>.json` record,
  and `process_image` enumerates layers from that record's `"added"` list.

Python sets are modelled as `Finset String`; where the source's behaviour
depends on the (unspecified, hash-randomized) iteration order of a set, the
enumeration is taken as an explicit argument constrained in the theorems.
Filesystem trees are modelled by the data the algorithms inspect: the parsed
manifest, the `blobs/sha256` directory listing, and the set of relative file
paths that exist in the tree.
-/

/-- Splits a character list on the separator character, mirroring Python's
`str.split("/")`: the empty string yields `[[]]`, separators at the ends
yield empty components. -/
def splitSlash : List Char → List (List Char)
  | [] => [[]]
  | c :: rest =>
    let r := splitSlash rest
    if c = '/' then [] :: r
    else
      match r with
      | [] => [[c]]
      | s :: ss => (c :: s) :: ss

/-- Components of a POSIX path string, as strings. -/
def pathComps (p : String) : List String :=
  (splitSlash p.data).map List.asString

/-- One folding step of `posixpath.normpath`'s component loop: empty and `"."`
components are dropped, `".."` pops the previous component except at the root
or after an unresolvable `".."`. `initialSlashes` is nonzero for absolute
paths. -/
def normpathStep (initialSlashes : Nat) (acc : List String) (comp : String) : List String :=
  if comp = "" ∨ comp = "." then acc
  else if comp ≠ ".." ∨ (initialSlashes = 0 ∧ acc = []) ∨ acc.getLast? = some ".." then
    acc ++ [comp]
  else if acc ≠ [] then acc.dropLast
  else acc

/-- Embedding of `posixpath.normpath` (the meaning of `os.path.normpath` on
the POSIX platforms the tool runs on): collapses repeated separators, removes
`"."` components, resolves `".."` where possible, and preserves the POSIX
special case of exactly two leading slashes. -/
def normpath (path : String) : String :=
  if path = "" then "."
  else
    let cs := path.data
    let initialSlashes : Nat :=
      if cs.take 3 = ['/', '/', '/'] then 1
      else if cs.take 2 = ['/', '/'] then 2
      else if cs.take 1 = ['/'] then 1
      else 0
    let newComps := (pathComps path).foldl (normpathStep initialSlashes) []
    let out := (List.replicate initialSlashes '/').asString ++ String.intercalate "/" newComps
    if out = "" then "." else out

/-- Last path component, as produced by `posixpath.basename`; this is the
file name `shutil.copy` gives a source file copied into a destination
directory. -/
def basename (p : String) : String :=
  (pathComps p).getLastD p

/-- Embedding of `os.path.join("blobs", "sha256", f)` for a relative name
`f`, as used for both archive blob paths and tree blob paths. -/
def joinBlobs (f : String) : String :=
  "blobs/sha256/" ++ f

/-- One exported image tree as the algorithms see it: the parsed
`manifest.json` (each entry reduced to its `Layers` list, the only field the
code reads), the file listing of its `blobs/sha256` directory, and the set of
relative file paths physically present in the tree. -/
structure ImageTree where
  manifest : List (List String)
  blobFiles : Finset String
  files : Finset String
  deriving DecidableEq

/-- Content of one diff archive after extraction: the file listing of its
`blobs/sha256` directory, the new version's `manifest.json`, whether that
manifest file is present, the `"added"` list of the serialized
`diff_<tag>.json`, and whether that record file is present. -/
structure DiffArchive where
  blobFiles : Finset String
  manifest : List (List String)
  manifestPresent : Bool
  diffAdded : List String
  diffJsonPresent : Bool
  deriving DecidableEq

namespace Utils

/-- Embedding of `utils.read_from_blobs` (identical in `main_old.py` and
`main_oop.py`): the set of `os.path.normpath(os.path.join("blobs", "sha256",
f))` for every file `f` listed in the tree's `blobs/sha256` directory. -/
def read_from_blobs (t : ImageTree) : Finset String :=
  t.blobFiles.image (fun f => normpath (joinBlobs f))

/-- Embedding of `utils.read_layers_from_manifest` (identical in
`main_old.py` and `main_oop.py`): collects `os.path.normpath(layer)` for
every layer of every manifest entry into a set. -/
def read_layers_from_manifest (manifest : List (List String)) : Finset String :=
  ((manifest.flatMap id).map normpath).toFinset

/-- The diff record computed by `utils.save_differences` (identical in
`main_old.py` and `main_oop.py`), at the level of the sets whose elements the
source serializes: `added = new_files - old_files` and
`removed = old_files - new_files`.  The serialization order of the two lists
is modelled separately by `dump_diff`. -/
structure DiffRecord where
  added : Finset String
  removed : Finset String

/-- Set-level embedding of `utils.save_differences`. -/
def save_differences (old_files new_files : Finset String) : DiffRecord :=
  { added := new_files \ old_files, removed := old_files \ new_files }

/-- JSON string literal for a layer path.  Layer paths produced by the tool
are of the shape `blobs/sha256/<hex digest>` and contain no character that
`json.dump` escapes, so quoting is plain. -/
def jsonStr (s : String) : String :=
  "\"" ++ s ++ "\""

/-- Serialization of one list value exactly as `json.dump(..., indent=4)`
renders a list sitting at the first indentation level. -/
def dumpStrList (l : List String) : String :=
  match l with
  | [] => "[]"
  | _ =>
    "[\n" ++ String.intercalate ",\n" (l.map (fun s => "        " ++ jsonStr s)) ++ "\n    ]"

/-- Byte content written by `utils.save_differences` to `diff_<tag>.json`:
`json.dump({"added": ..., "removed": ...}, f, indent=4)`.  The two arguments
are the enumerations of `new_files - old_files` and `old_files - new_files`
in the order Python's set iteration happens to produce them; the source does
not sort them. -/
def dump_diff (addedEnum removedEnum : List String) : String :=
  "\x7b\n    \"added\": " ++ dumpStrList addedEnum ++
  ",\n    \"removed\": " ++ dumpStrList removedEnum ++ "\n\x7d"

end Utils

namespace MainPy

/-- Embedding of `main.read_layers_from_manifest`: same collection as the
`utils.py` variant but, unlike it, WITHOUT `os.path.normpath` on the
entries. -/
def read_layers_from_manifest (manifest : List (List String)) : Finset String :=
  (manifest.flatMap id).toFinset

end MainPy

/-- Outcome of one `process_image` invocation.  The constructors other than
`ok` correspond to the code paths that end the call without creating the
release archive: the early `return` when the diff tar is absent, the early
`return` when `manifest.json` respectively `diff_<tag>.json` is missing from
the archive, the early `return` on a layer reconcilable from neither source,
and a propagating exception (for instance `shutil.copy` of a file that does
not exist).  `ok layers` is the one path that creates the release tar; its
payload is the set of layer blob paths materialized in the output tree. -/
inductive ApplyOutcome where
  | missingArchive
  | missingManifest
  | missingDiffJson
  | irreconcilable (layer : String)
  | ioError
  | ok (layers : Finset String)
  deriving DecidableEq

/-- The release archive written by a `process_image` call: `some layers` iff
the call reached the final tar creation (the `ok` path), since that creation
is the only write to the release directory and it happens last. -/
def releaseWrite : ApplyOutcome → Option (Finset String)
  | .ok layers => some layers
  | _ => none

/-- The missing-layer loop shared verbatim by all `process_image` variants:
for each enumerated layer, a layer already among the blobs extracted from
the archive is kept as is; otherwise, if the old version's manifest set has
it, its blob is copied from the old tree (an exception if the file is
physically absent); otherwise the run ends with the missing-layer error.
Returns the set of layers copied from the old tree. -/
def reconcileLayers (extracted oldLayers oldFiles : Finset String) :
    List String → Except ApplyOutcome (Finset String)
  | [] => .ok ∅
  | l :: rest =>
    if l ∈ extracted then reconcileLayers extracted oldLayers oldFiles rest
    else if l ∈ oldLayers then
      if l ∈ oldFiles then
        (reconcileLayers extracted oldLayers oldFiles rest).map (insert l)
      else .error .ioError
    else .error (.irreconcilable l)

namespace MainPy

/-- Embedding of `main.process_image` (the `--target` mode of `main.py`).
The argument is `none` when the deterministic diff tar path does not exist.
Steps modelled: the existence check on the diff tar; the `manifest.json`
presence check inside the extracted archive; `json.load(f)[0]["Layers"]`
(an exception on an empty manifest list); copying every blob listed in the
archive's `blobs/sha256` directory into the output tree; the missing-layer
loop driven by the MANIFEST layer list, with the old version's layer set
read from its manifest WITHOUT normalization; and, only after the loop
completes, the creation of the release tar.  Copies of auxiliary top-level
files (`manifest.json`, `repositories`, old top-level files) touch no path
under `blobs/sha256` and are not part of the layer set. -/
def process_image (archive : Option DiffArchive) (old : ImageTree) : ApplyOutcome :=
  match archive with
  | none => .missingArchive
  | some a =>
    if ¬ a.manifestPresent then .missingManifest
    else
      match a.manifest with
      | [] => .ioError
      | item0 :: _ =>
        let extracted := a.blobFiles.image joinBlobs
        let oldLayers := read_layers_from_manifest old.manifest
        match reconcileLayers extracted oldLayers old.files item0 with
        | .error e => e
        | .ok copied => .ok (extracted ∪ copied)

end MainPy

namespace Utils

/-- Embedding of `utils.process_image` (shared logic with `main_old.py` and
`main_oop.py`).  Differences from the `main.py` variant, as in the source:
the in-archive presence check is on `diff_<tag>.json` (early `return`), the
layer enumeration driving the missing-layer loop is that record's `"added"`
list rather than the manifest, the archive's `manifest.json` is copied
unconditionally (a propagating exception when absent), and the old version's
manifest layer set IS path-normalized. -/
def process_image (archive : Option DiffArchive) (old : ImageTree) : ApplyOutcome :=
  match archive with
  | none => .missingArchive
  | some a =>
    if ¬ a.diffJsonPresent then .missingDiffJson
    else
      let extracted := a.blobFiles.image joinBlobs
      if ¬ a.manifestPresent then .ioError
      else
        let oldLayers := read_layers_from_manifest old.manifest
        match reconcileLayers extracted oldLayers old.files a.diffAdded with
        | .error e => e
        | .ok copied => .ok (extracted ∪ copied)

end Utils

/-- Filesystem operations performed by `generate_diff`, at the granularity
the spec's archive-build claims speak about: copies into the scratch diff
directory, the write of the serialized diff record into scratch, the
creation of the archive directly at its final output path, and an atomic
rename of a finished scratch archive onto the final path (an operation the
claims mention; the source never performs it). -/
inductive FsOp where
  | copyBlobToScratch (layer : String)
  | copyAuxToScratch (name : String)
  | writeDiffJsonToScratch
  | createTarAtFinal
  | renameToFinal
  deriving DecidableEq

/-- Result of a `generate_diff` invocation: on success the archive content
that a later `process_image` extracts, otherwise the first layer whose blob
copy raised (`shutil.copy` of a source path that does not exist). -/
inductive GenOutcome where
  | copyFailed (layer : String)
  | ok (archive : DiffArchive)
  deriving DecidableEq

/-- Trace and outcome of one `generate_diff` invocation. -/
structure GenResult where
  ops : List FsOp
  outcome : GenOutcome
  deriving DecidableEq

/-- Whether a `generate_diff` invocation succeeded. -/
def GenResult.succeeded (r : GenResult) : Bool :=
  match r.outcome with
  | .ok _ => true
  | _ => false

/-- The blob-copy loop of `main.generate_diff`: each layer of the new
version absent from the old version is copied from the new export tree into
the scratch `blobs/sha256` directory under its basename; a source path that
does not exist raises, ending the loop (operations already performed remain,
all of them in scratch). -/
def copyAddedBlobs (newFiles : Finset String) :
    List String → List FsOp × Except String (Finset String)
  | [] => ([], .ok ∅)
  | l :: rest =>
    if l ∈ newFiles then
      (.copyBlobToScratch l :: (copyAddedBlobs newFiles rest).1,
        (copyAddedBlobs newFiles rest).2.map (insert (basename l)))
    else ([], .error l)

namespace MainPy

/-- Embedding of `main.generate_diff` (the `--dev` mode of `main.py`).  The
old and new layer sets come from the two versions' manifests
(`read_layers_from_manifest`); `addedEnum` is the iteration of the new
version's layer set restricted to layers not in the old set, in the order
Python's set iteration produces (unspecified, so taken as an argument and
constrained where theorems need it).  Each added layer's blob is copied from
the new export tree into scratch; `manifest.json` and `repositories` are
then copied into scratch (assumed present in a valid export), and finally
the tar is created DIRECTLY at the final output path
`output-diff-images/<image>_diff_<tag2>.tar`.  `main.py` writes no
`diff_<tag>.json`. -/
def generate_diff (old new : ImageTree) (addedEnum : List String) : GenResult :=
  match (copyAddedBlobs new.files addedEnum).2 with
  | .error l => { ops := (copyAddedBlobs new.files addedEnum).1, outcome := .copyFailed l }
  | .ok blobs =>
    { ops := (copyAddedBlobs new.files addedEnum).1 ++
        [.copyAuxToScratch "manifest.json", .copyAuxToScratch "repositories",
         .createTarAtFinal],
      outcome := .ok
        { blobFiles := blobs, manifest := new.manifest, manifestPresent := true,
          diffAdded := [], diffJsonPresent := false } }

end MainPy

namespace Utils

/-- Embedding of `utils.generate_diff` (shared logic with `main_old.py` and
`main_oop.py`).  The old and new layer sets come from the `blobs/sha256`
directory listings (`read_from_blobs`), so every added layer's blob exists
by construction and the copies cannot fail.  `diffAddedEnum` is the
enumeration `list(new_files - old_files)` that `save_differences` serializes
into `diff_<tag>.json` (Python set order, taken as an argument).  The tar is
created directly at the final output path.  The trace lists blob copies in
a canonical enumeration of the added set (the Python loop visits the same
set in unspecified order); only membership in the trace is meaningful. -/
def generate_diff (old new : ImageTree) (diffAddedEnum : List String) : GenResult :=
  let oldL := read_from_blobs old
  let newL := read_from_blobs new
  let added := newL \ oldL
  { ops := (added.sort (· ≤ ·)).map .copyBlobToScratch ++
      [.copyAuxToScratch "manifest.json", .copyAuxToScratch "repositories",
       .writeDiffJsonToScratch, .createTarAtFinal],
    outcome := .ok
      { blobFiles := added.image basename, manifest := new.manifest, manifestPresent := true,
        diffAdded := diffAddedEnum, diffJsonPresent := true } }

end Utils

/-- One worklist entry of the driver loop: the `Image`, `Old Version` and
`New Version` fields of one configuration record, `none` when the key is
absent. -/
structure Entry where
  image : Option String
  oldVer : Option String
  newVer : Option String
  deriving DecidableEq

/-- Truthiness of one field as tested by `if not image or not tag1 or not
tag2`: absent keys and empty strings are falsy. -/
def truthy : Option String → Bool
  | none => false
  | some s => s != ""

/-- Whether an entry passes the driver's field check. -/
def Entry.valid (e : Entry) : Bool :=
  truthy e.image && truthy e.oldVer && truthy e.newVer

/-- How one entry's processing ends, seen from the driver loop: a normal
return (success), a handled per-entry error (the function logged and
returned), or a fatality that ends the whole process — an uncaught exception
in `main.py`, or `sys.exit(1)` in `main_bash.py`'s save/extract/tar steps. -/
inductive EntryOutcome where
  | ok
  | handled
  | fatal
  deriving DecidableEq

/-- Driver classification of a `process_image` outcome: a propagating
exception is fatal for the run (the `__main__` loop of `main.py` wraps the
per-entry call in no try/except); every `return` path is per-entry only. -/
def classifyApply : ApplyOutcome → EntryOutcome
  | .ok _ => .ok
  | .ioError => .fatal
  | _ => .handled

/-- Embedding of the `__main__` worklist loop of `main.py` (the same shape
as `main_old.py` and `main_bash.py`): entries with a falsy field are logged
and skipped; otherwise the entry is processed, and a fatal outcome ends the
run with every remaining entry unprocessed.  Returns the entries actually
handed to processing. -/
def runEntries (process : Entry → EntryOutcome) : List Entry → List Entry
  | [] => []
  | e :: rest =>
    if e.valid then
      match process e with
      | .fatal => [e]
      | _ => e :: runEntries process rest
    else runEntries process rest

/-! Helper lemmas about the shared loops. -/

/-- When every enumerated layer is either among the extracted archive blobs
or a physically present layer of the old version's manifest set, the
missing-layer loop succeeds, and together with the extracted blobs it
materializes exactly the enumerated layers. -/
theorem reconcileLayers_ok (extracted oldLayers oldFiles : Finset String) (L : List String)
    (h : ∀ l ∈ L, l ∈ extracted ∨ (l ∈ oldLayers ∧ l ∈ oldFiles)) :
    ∃ s, reconcileLayers extracted oldLayers oldFiles L = .ok s ∧
      extracted ∪ s = extracted ∪ L.toFinset := by
  induction L with
  | nil => exact ⟨∅, rfl, by simp⟩
  | cons l rest ih =>
    obtain ⟨s, hs, hu⟩ := ih (fun x hx => h x (by simp [hx]))
    by_cases hl : l ∈ extracted
    · refine ⟨s, by simp [reconcileLayers, hl, hs], ?_⟩
      rw [List.toFinset_cons, Finset.union_insert,
        Finset.insert_eq_self.mpr (Finset.mem_union_left _ hl), hu]
    · obtain h1 | ⟨h2, h3⟩ := h l (by simp)
      · exact absurd h1 hl
      · refine ⟨insert l s, ?_, ?_⟩
        · simp [reconcileLayers, hl, h2, h3, hs, Except.map]
        · rw [List.toFinset_cons, Finset.union_insert, Finset.union_insert, hu]

/-- Every layer enumerated by a successful missing-layer loop ends up in the
output tree (either it was among the extracted blobs or it was copied). -/
theorem reconcileLayers_covers (extracted oldLayers oldFiles : Finset String)
    (L : List String) :
    ∀ s : Finset String, reconcileLayers extracted oldLayers oldFiles L = .ok s →
      ∀ l ∈ L, l ∈ extracted ∪ s := by
  induction L with
  | nil => simp
  | cons l rest ih =>
    intro s hok x hx
    by_cases hl : l ∈ extracted
    · rw [reconcileLayers, if_pos hl] at hok
      rcases List.mem_cons.mp hx with rfl | hx'
      · exact Finset.mem_union_left _ hl
      · exact ih s hok x hx'
    · rw [reconcileLayers, if_neg hl] at hok
      by_cases ho : l ∈ oldLayers
      · rw [if_pos ho] at hok
        by_cases hf : l ∈ oldFiles
        · rw [if_pos hf] at hok
          cases hrec : reconcileLayers extracted oldLayers oldFiles rest with
          | error e => rw [hrec] at hok; exact absurd hok (by simp [Except.map])
          | ok s' =>
            rw [hrec] at hok
            simp only [Except.map] at hok
            obtain rfl : insert l s' = s := by injection hok
            rcases List.mem_cons.mp hx with rfl | hx'
            · exact Finset.mem_union_right _ (Finset.mem_insert_self _ _)
            · have := ih s' hrec x hx'
              rcases Finset.mem_union.mp this with h' | h'
              · exact Finset.mem_union_left _ h'
              · exact Finset.mem_union_right _ (Finset.mem_insert_of_mem h')
        · rw [if_neg hf] at hok; cases hok
      · rw [if_neg ho] at hok; cases hok

/-- The missing-layer loop never returns a success outcome through its error
channel: an error is always the missing-layer early return or the exception
from copying an absent file. -/
theorem reconcileLayers_error_not_ok (extracted oldLayers oldFiles : Finset String)
    (L : List String) :
    ∀ e : ApplyOutcome, reconcileLayers extracted oldLayers oldFiles L = .error e →
      releaseWrite e = none := by
  induction L with
  | nil => intro e herr; cases herr
  | cons l rest ih =>
    intro e herr
    by_cases hl : l ∈ extracted
    · rw [reconcileLayers, if_pos hl] at herr; exact ih e herr
    · rw [reconcileLayers, if_neg hl] at herr
      by_cases ho : l ∈ oldLayers
      · rw [if_pos ho] at herr
        by_cases hf : l ∈ oldFiles
        · rw [if_pos hf] at herr
          cases hrec : reconcileLayers extracted oldLayers oldFiles rest with
          | error e' =>
            rw [hrec] at herr
            simp only [Except.map] at herr
            obtain rfl : e' = e := by injection herr
            exact ih _ hrec
          | ok s' => rw [hrec] at herr; exact absurd herr (by simp [Except.map])
        · rw [if_neg hf] at herr
          obtain rfl : ApplyOutcome.ioError = e := by injection herr
          rfl
      · rw [if_neg ho] at herr
        obtain rfl : ApplyOutcome.irreconcilable l = e := by injection herr
        rfl

/-- When some enumerated layer is reconcilable from neither the archive nor
the old version, and copies from the old version cannot fail, the
missing-layer loop ends with the missing-layer error. -/
theorem reconcileLayers_missing (extracted oldLayers oldFiles : Finset String)
    (L : List String)
    (hcopy : ∀ l ∈ L, l ∈ oldLayers → l ∈ oldFiles)
    (hbad : ∃ l ∈ L, l ∉ extracted ∧ l ∉ oldLayers) :
    ∃ b, b ∈ L ∧ b ∉ extracted ∧ b ∉ oldLayers ∧
      reconcileLayers extracted oldLayers oldFiles L = .error (.irreconcilable b) := by
  induction L with
  | nil => simp at hbad
  | cons l rest ih =>
    by_cases hl : l ∈ extracted
    · obtain ⟨b, hb, hb1, hb2⟩ := hbad
      have hbr : b ∈ rest := by
        rcases List.mem_cons.mp hb with rfl | h'
        · exact absurd hl hb1
        · exact h'
      obtain ⟨b', h1, h2, h3, h4⟩ :=
        ih (fun x hx => hcopy x (by simp [hx])) ⟨b, hbr, hb1, hb2⟩
      exact ⟨b', by simp [h1], h2, h3, by simp [reconcileLayers, hl, h4]⟩
    · by_cases ho : l ∈ oldLayers
      · have hf := hcopy l (by simp) ho
        obtain ⟨b, hb, hb1, hb2⟩ := hbad
        have hbr : b ∈ rest := by
          rcases List.mem_cons.mp hb with rfl | h'
          · exact absurd ho hb2
          · exact h'
        obtain ⟨b', h1, h2, h3, h4⟩ :=
          ih (fun x hx => hcopy x (by simp [hx])) ⟨b, hbr, hb1, hb2⟩
        refine ⟨b', by simp [h1], h2, h3, ?_⟩
        simp [reconcileLayers, hl, ho, hf, h4, Except.map]
      · exact ⟨l, by simp, hl, ho, by simp [reconcileLayers, hl, ho]⟩

/-- When every enumerated added layer's blob exists in the new export tree,
the blob-copy loop of `main.generate_diff` succeeds and the scratch archive
holds exactly the basenames of the enumerated layers. -/
theorem copyAddedBlobs_ok (newFiles : Finset String) (L : List String)
    (h : ∀ l ∈ L, l ∈ newFiles) :
    (copyAddedBlobs newFiles L).2 = .ok (L.map basename).toFinset := by
  induction L with
  | nil => rfl
  | cons l rest ih =>
    have h1 := h l (by simp)
    rw [copyAddedBlobs, if_pos h1, ih (fun x hx => h x (by simp [hx]))]
    simp [Except.map]

/-- Every operation the blob-copy loop performs is a copy into the scratch
directory. -/
theorem copyAddedBlobs_ops_are_copies (newFiles : Finset String) (L : List String) :
    ∀ op ∈ (copyAddedBlobs newFiles L).1, ∃ l, op = .copyBlobToScratch l := by
  induction L with
  | nil => simp [copyAddedBlobs]
  | cons l rest ih =>
    intro op hop
    by_cases hl : l ∈ newFiles
    · rw [copyAddedBlobs, if_pos hl] at hop
      rcases List.mem_cons.mp hop with rfl | h'
      · exact ⟨l, rfl⟩
      · exact ih op h'
    · rw [copyAddedBlobs, if_neg hl] at hop
      cases hop

/-- A layer whose blob is missing from the new export tree makes the
blob-copy loop fail. -/
theorem copyAddedBlobs_fails (newFiles : Finset String) (L : List String)
    (hbad : ∃ l ∈ L, l ∉ newFiles) :
    ∃ b, (copyAddedBlobs newFiles L).2 = .error b := by
  induction L with
  | nil => simp at hbad
  | cons l rest ih =>
    by_cases hl : l ∈ newFiles
    · obtain ⟨b, hb, hb1⟩ := hbad
      have hbr : b ∈ rest := by
        rcases List.mem_cons.mp hb with rfl | h'
        · exact absurd hl hb1
        · exact h'
      obtain ⟨b', h'⟩ := ih ⟨b, hbr, hb1⟩
      rw [copyAddedBlobs, if_pos hl, h']
      exact ⟨b', by simp [Except.map]⟩
    · exact ⟨l, by rw [copyAddedBlobs, if_neg hl]⟩

/-- Taking the Finset of a mapped list is the image of the list's Finset. -/
theorem toFinset_list_map (l : List String) (f : String → String) :
    (l.map f).toFinset = l.toFinset.image f := by
  induction l with
  | nil => simp
  | cons x xs ih => simp [ih]

/-- Unfolding equation for `MainPy.process_image` on a present archive whose
manifest file exists and parses to a nonempty list. -/
theorem MainPy.process_image_eq (a : DiffArchive) (old : ImageTree)
    (hp : a.manifestPresent = true)
    (item0 : List String) (rest : List (List String)) (hm : a.manifest = item0 :: rest) :
    MainPy.process_image (some a) old =
      match reconcileLayers (a.blobFiles.image joinBlobs)
          (MainPy.read_layers_from_manifest old.manifest) old.files item0 with
      | .error e => e
      | .ok copied => .ok (a.blobFiles.image joinBlobs ∪ copied) := by
  obtain ⟨bs, m, mp, da, dj⟩ := a
  simp only at hp hm
  subst hp
  subst hm
  rfl

/-- Unfolding equation for `MainPy.process_image` when the archive lacks its
`manifest.json`. -/
theorem MainPy.process_image_noManifest (a : DiffArchive) (old : ImageTree)
    (hp : a.manifestPresent = false) :
    MainPy.process_image (some a) old = .missingManifest := by
  obtain ⟨bs, m, mp, da, dj⟩ := a
  simp only at hp
  subst hp
  rfl

/-! Claim theorems. -/

/-- Claim C1: for every pair of layer sets, the diff computed by
`save_differences` has `added` equal to the exact set difference
`new_files - old_files` and `removed` equal to `old_files - new_files`;
consequently `added ∩ old_files = ∅` and `new_files \ added ⊆ old_files`. -/
theorem c1_diff_is_exact_set_difference (old_files new_files : Finset String) :
    (Utils.save_differences old_files new_files).added = new_files \ old_files ∧
    (Utils.save_differences old_files new_files).removed = old_files \ new_files ∧
    (Utils.save_differences old_files new_files).added ∩ old_files = ∅ ∧
    new_files \ (Utils.save_differences old_files new_files).added ⊆ old_files := by
  refine ⟨rfl, rfl, ?_, ?_⟩
  · ext x
    simp only [Utils.save_differences, Finset.mem_inter, Finset.mem_sdiff,
      Finset.not_mem_empty, iff_false]
    tauto
  · intro x hx
    simp only [Utils.save_differences, Finset.mem_sdiff] at hx
    by_contra hxo
    exact hx.2 ⟨hx.1, hxo⟩

/-- Claim C9: for every pair of input layer sets, the two components of the
diff record computed by `save_differences` are disjoint:
`added ∩ removed = ∅`. -/
theorem c9_added_removed_disjoint (old_files new_files : Finset String) :
    (Utils.save_differences old_files new_files).added ∩
      (Utils.save_differences old_files new_files).removed = ∅ := by
  ext x
  simp only [Utils.save_differences, Finset.mem_inter, Finset.mem_sdiff,
    Finset.not_mem_empty, iff_false]
  tauto

/-- Claim C10: the manifest reader of `utils.py` (and `main_oop.py`,
`main_old.py`) normalizes every layer path before inserting it, so two
manifest entries whose paths normalize to the same string contribute a
single element to the returned layer set. -/
theorem c10_manifest_reader_normalizes (l1 l2 : String) (rest : List String)
    (items : List (List String)) (h : normpath l1 = normpath l2) :
    Utils.read_layers_from_manifest ((l1 :: l2 :: rest) :: items) =
      Utils.read_layers_from_manifest ((l1 :: rest) :: items) ∧
    normpath l1 ∈ Utils.read_layers_from_manifest ((l1 :: l2 :: rest) :: items) := by
  constructor
  · simp only [Utils.read_layers_from_manifest, List.flatMap_cons, id_eq, List.map_append,
      List.map_cons, List.toFinset_append, List.toFinset_cons, h, Finset.insert_idem]
  · simp only [Utils.read_layers_from_manifest, List.mem_toFinset, List.mem_map]
    exact ⟨l1, by simp [List.flatMap_cons], rfl⟩

/-- Claim C10 witness: two concrete manifest entries differing only in a
redundant separator respectively a `"."` segment collapse to one layer
identifier. -/
theorem c10_manifest_reader_normalizes_witness :
    Utils.read_layers_from_manifest [["blobs//sha256/x", "blobs/./sha256/x"]] =
      Utils.read_layers_from_manifest [["blobs//sha256/x"]] ∧
    normpath "blobs//sha256/x" ∈
      Utils.read_layers_from_manifest [["blobs//sha256/x", "blobs/./sha256/x"]] :=
  c10_manifest_reader_normalizes "blobs//sha256/x" "blobs/./sha256/x" [] [] (by decide)

/-- Claim C5 (code defect): the serializer writes `added` in Python's
unspecified set-iteration order, not sorted, so two runs over the same input
sets may emit different bytes.  Both argument lists enumerate the very set
`save_differences` computes for `old = ∅`,
`new = {blobs/sha256/a, blobs/sha256/b}`, yet the serialized archives
differ byte for byte. -/
theorem c5_serialization_depends_on_set_order :
    (Utils.save_differences ∅ {"blobs/sha256/a", "blobs/sha256/b"}).added
      = (["blobs/sha256/a", "blobs/sha256/b"] : List String).toFinset
    ∧ (Utils.save_differences ∅ {"blobs/sha256/a", "blobs/sha256/b"}).added
      = (["blobs/sha256/b", "blobs/sha256/a"] : List String).toFinset
    ∧ Utils.dump_diff ["blobs/sha256/a", "blobs/sha256/b"] []
      ≠ Utils.dump_diff ["blobs/sha256/b", "blobs/sha256/a"] [] := by decide

/-- Old version for the round-trip scenario of claim C2: one layer `l1`. -/
def c2Old : ImageTree :=
  { manifest := [["blobs/sha256/l1"]], blobFiles := {"l1"},
    files := {"blobs/sha256/l1"} }

/-- New version for the round-trip scenario of claim C2: layers `l1` (kept)
and `l2` (added). -/
def c2New : ImageTree :=
  { manifest := [["blobs/sha256/l1", "blobs/sha256/l2"]], blobFiles := {"l1", "l2"},
    files := {"blobs/sha256/l1", "blobs/sha256/l2"} }

/-- The archive `utils.generate_diff` builds for `(c2Old, c2New)`: the one
changed blob, the new manifest, and the serialized diff record. -/
def c2UtilsArchive : DiffArchive :=
  { blobFiles := {"l2"}, manifest := [["blobs/sha256/l1", "blobs/sha256/l2"]],
    manifestPresent := true, diffAdded := ["blobs/sha256/l2"], diffJsonPresent := true }

/-- Claim C2 counterexample: the diff-record-driven pipeline of `utils.py`
violates the round-trip law.  For `old = {l1}`, `new = {l1, l2}` the builder
produces the expected archive (added `= {l2}`), but reconstruction succeeds
with layer set `{l2}` only: the manifest-required unchanged layer `l1`,
available in the old version, is never copied, so the result is not the
manifest-required set. -/
theorem c2_counterexample_utils_pipeline_omits_layer :
    (["blobs/sha256/l2"] : List String).toFinset
        = Utils.read_from_blobs c2New \ Utils.read_from_blobs c2Old
    ∧ (Utils.generate_diff c2Old c2New ["blobs/sha256/l2"]).outcome = .ok c2UtilsArchive
    ∧ Utils.process_image (some c2UtilsArchive) c2Old = .ok {"blobs/sha256/l2"}
    ∧ "blobs/sha256/l1" ∈ MainPy.read_layers_from_manifest c2UtilsArchive.manifest
    ∧ "blobs/sha256/l1" ∉ ({"blobs/sha256/l2"} : Finset String) := by decide

/-- Claim C2 (amended): the round-trip law holds for the manifest-driven
pipeline of `main.py`.  For any faithful exports `old` and `new` whose new
manifest is a single entry of `blobs/sha256/<name>` layer paths,
`generate_diff` succeeds, and reconstructing from its archive together with
the old baseline yields exactly the set of layers listed by the new
version's manifest: every manifest-listed layer present, none extra.
`addedEnum` is Python's enumeration of the computed added set. -/
theorem c2_roundtrip_manifest_pipeline (old new : ImageTree) (addedEnum : List String)
    (item0 : List String)
    (hm : new.manifest = [item0])
    (henum : addedEnum.toFinset =
      MainPy.read_layers_from_manifest new.manifest \
        MainPy.read_layers_from_manifest old.manifest)
    (hform : ∀ l ∈ addedEnum, joinBlobs (basename l) = l)
    (hnewf : ∀ l ∈ item0, l ∈ new.files)
    (holdf : ∀ l ∈ MainPy.read_layers_from_manifest old.manifest, l ∈ old.files) :
    ∃ a, (MainPy.generate_diff old new addedEnum).outcome = .ok a ∧
      MainPy.process_image (some a) old =
        .ok (MainPy.read_layers_from_manifest new.manifest) := by
  have hnewset : MainPy.read_layers_from_manifest new.manifest = item0.toFinset := by
    rw [hm]; simp [MainPy.read_layers_from_manifest]
  have hcopy : ∀ l ∈ addedEnum, l ∈ new.files := by
    intro l hl
    have hmem : l ∈ addedEnum.toFinset := List.mem_toFinset.mpr hl
    rw [henum] at hmem
    have hln := (Finset.mem_sdiff.mp hmem).1
    rw [hnewset] at hln
    exact hnewf l (List.mem_toFinset.mp hln)
  have hblobs := copyAddedBlobs_ok new.files addedEnum hcopy
  refine ⟨⟨(addedEnum.map basename).toFinset, new.manifest, true, [], false⟩, ?_, ?_⟩
  · simp only [MainPy.generate_diff, hblobs]
  · have hext : ((addedEnum.map basename).toFinset).image joinBlobs = addedEnum.toFinset := by
      rw [toFinset_list_map, Finset.image_image]
      have hcg : Set.EqOn (joinBlobs ∘ basename) id ↑addedEnum.toFinset := by
        intro l hl
        simp only [Function.comp_apply, id_eq]
        exact hform l (List.mem_toFinset.mp (Finset.mem_coe.mp hl))
      rw [Finset.image_congr hcg, Finset.image_id]
    have hrec : ∀ l ∈ item0,
        l ∈ (((addedEnum.map basename).toFinset).image joinBlobs) ∨
          (l ∈ MainPy.read_layers_from_manifest old.manifest ∧ l ∈ old.files) := by
      intro l hl
      by_cases ho : l ∈ MainPy.read_layers_from_manifest old.manifest
      · exact Or.inr ⟨ho, holdf l ho⟩
      · refine Or.inl ?_
        rw [hext, henum]
        exact Finset.mem_sdiff.mpr ⟨by rw [hnewset]; exact List.mem_toFinset.mpr hl, ho⟩
    obtain ⟨s, hs, hu⟩ := reconcileLayers_ok
      (((addedEnum.map basename).toFinset).image joinBlobs)
      (MainPy.read_layers_from_manifest old.manifest) old.files item0 hrec
    have hsub : ((addedEnum.map basename).toFinset).image joinBlobs ⊆ item0.toFinset := by
      rw [hext, henum, hnewset]
      exact Finset.sdiff_subset
    rw [MainPy.process_image_eq _ old rfl item0 [] hm, hs, hnewset]
    exact congrArg ApplyOutcome.ok (by rw [hu, Finset.union_eq_right.mpr hsub])

/-- Claim C2 witness: the spec's one-new-layer scenario, `old = {l1}`,
`new = {l1, l2}`, reconstructs through the manifest-driven pipeline to
exactly `{l1, l2}`. -/
theorem c2_roundtrip_manifest_pipeline_witness :
    ∃ a, (MainPy.generate_diff c2Old c2New ["blobs/sha256/l2"]).outcome = .ok a ∧
      MainPy.process_image (some a) c2Old =
        .ok (MainPy.read_layers_from_manifest c2New.manifest) :=
  c2_roundtrip_manifest_pipeline c2Old c2New ["blobs/sha256/l2"]
    ["blobs/sha256/l1", "blobs/sha256/l2"]
    (by decide) (by decide) (by decide) (by decide) (by decide)

/-- Archive for the claim C3 counterexample: empty blob directory and empty
serialized `added` list, while the manifest requires layer `b`. -/
def c3Archive : DiffArchive :=
  { blobFiles := ∅, manifest := [["blobs/sha256/b"]], manifestPresent := true,
    diffAdded := [], diffJsonPresent := true }

/-- Old baseline for the claim C3 counterexample: it has layer `b`, both in
its manifest and physically. -/
def c3Old : ImageTree :=
  { manifest := [["blobs/sha256/b"]], blobFiles := {"b"}, files := {"blobs/sha256/b"} }

/-- Claim C3 counterexample: the reconstruction of `utils.py` (and
`main_oop.py`, `main_old.py`) does NOT enumerate the required layers from
the target manifest — it enumerates the archive's serialized diff record.
With an empty `added` record it succeeds with an empty layer set although
the manifest requires `b` and `b` is available in the baseline; the
manifest-driven `main.py` reconstruction materializes `b` on the same
input. -/
theorem c3_counterexample_utils_ignores_manifest :
    Utils.process_image (some c3Archive) c3Old = .ok ∅
    ∧ "blobs/sha256/b" ∈ MainPy.read_layers_from_manifest c3Archive.manifest
    ∧ "blobs/sha256/b" ∈ c3Old.files
    ∧ MainPy.process_image (some c3Archive) c3Old = .ok {"blobs/sha256/b"} := by decide

/-- Claim C3 (amended): in the `main.py` reconstruction the required layer
set is enumerated from the target manifest: whenever `process_image`
succeeds, every layer listed by the archive manifest's first entry is
present in the reconstructed layer set.  The `utils.py`, `main_oop.py` and
`main_old.py` variants instead enumerate the archive's serialized diff
record, per the counterexample. -/
theorem c3_main_materializes_manifest_layers (a : DiffArchive) (old : ImageTree)
    (t : Finset String) (item0 : List String) (rest : List (List String))
    (hm : a.manifest = item0 :: rest)
    (hok : MainPy.process_image (some a) old = .ok t) :
    ∀ l ∈ item0, l ∈ t := by
  intro l hl
  by_cases hp : a.manifestPresent
  · rw [MainPy.process_image_eq a old hp item0 rest hm] at hok
    cases hrec : reconcileLayers (a.blobFiles.image joinBlobs)
        (MainPy.read_layers_from_manifest old.manifest) old.files item0 with
    | error e =>
      rw [hrec] at hok
      have hok' : e = ApplyOutcome.ok t := hok
      have hnone := reconcileLayers_error_not_ok (a.blobFiles.image joinBlobs)
        (MainPy.read_layers_from_manifest old.manifest) old.files item0 e hrec
      rw [hok'] at hnone
      cases hnone
    | ok s =>
      rw [hrec] at hok
      have hok' : ApplyOutcome.ok (a.blobFiles.image joinBlobs ∪ s) = ApplyOutcome.ok t := hok
      have ht : a.blobFiles.image joinBlobs ∪ s = t := by injection hok'
      rw [← ht]
      exact reconcileLayers_covers (a.blobFiles.image joinBlobs)
        (MainPy.read_layers_from_manifest old.manifest) old.files item0 s hrec l hl
  · rw [MainPy.process_image_noManifest a old (by simpa using hp)] at hok
    cases hok

/-- Archive for the claim C3 witness: the added blob `b` travels in the
archive and the manifest requires it. -/
def c3wArchive : DiffArchive :=
  { blobFiles := {"b"}, manifest := [["blobs/sha256/b"]], manifestPresent := true,
    diffAdded := [], diffJsonPresent := false }

/-- Trivial empty old baseline for the claim C3 witness. -/
def c3wOld : ImageTree := { manifest := [], blobFiles := ∅, files := ∅ }

/-- Claim C3 witness: on a concrete successful reconstruction, the
manifest-listed layer is in the output layer set. -/
theorem c3_main_materializes_manifest_layers_witness :
    "blobs/sha256/b" ∈ ({"blobs/sha256/b"} : Finset String) :=
  c3_main_materializes_manifest_layers c3wArchive c3wOld {"blobs/sha256/b"}
    ["blobs/sha256/b"] [] (by decide) (by decide) "blobs/sha256/b" (by decide)

/-- Archive for the claim C4 counterexample: manifest requires layer `c`,
the blob directory and the serialized `added` record are empty. -/
def c4Archive : DiffArchive :=
  { blobFiles := ∅, manifest := [["blobs/sha256/c"]], manifestPresent := true,
    diffAdded := [], diffJsonPresent := true }

/-- Old baseline for the claim C4 counterexample: completely empty, so
layer `c` is available nowhere. -/
def c4Old : ImageTree := { manifest := [], blobFiles := ∅, files := ∅ }

/-- Claim C4 counterexample: layer `c` is required by the manifest and
absent from both the archive's blobs and the old baseline, yet the
reconstruction of `utils.py` (which checks only the diff record's `added`
layers) succeeds and writes an output archive. -/
theorem c4_counterexample_utils_writes_output :
    "blobs/sha256/c" ∈ MainPy.read_layers_from_manifest c4Archive.manifest
    ∧ "blobs/sha256/c" ∉ c4Archive.blobFiles.image joinBlobs
    ∧ "blobs/sha256/c" ∉ c4Old.files
    ∧ "blobs/sha256/c" ∉ MainPy.read_layers_from_manifest c4Old.manifest
    ∧ Utils.process_image (some c4Archive) c4Old = .ok ∅
    ∧ releaseWrite (Utils.process_image (some c4Archive) c4Old) ≠ none := by decide

/-- Claim C4 (amended): in the `main.py` reconstruction, a manifest-required
layer absent from both the archive's extracted blobs and the old version's
manifest layer set makes `process_image` end with the missing-layer error,
and no output archive is written.  (`utils.py` applies this check only to
diff-record layers, per the counterexample.) -/
theorem c4_main_missing_layer_is_fatal (a : DiffArchive) (old : ImageTree)
    (item0 : List String) (rest : List (List String)) (b : String)
    (hm : a.manifest = item0 :: rest)
    (hp : a.manifestPresent = true)
    (holdf : ∀ l ∈ MainPy.read_layers_from_manifest old.manifest, l ∈ old.files)
    (hb : b ∈ item0)
    (hbext : b ∉ a.blobFiles.image joinBlobs)
    (hbold : b ∉ MainPy.read_layers_from_manifest old.manifest) :
    (∃ bad, MainPy.process_image (some a) old = .irreconcilable bad) ∧
    releaseWrite (MainPy.process_image (some a) old) = none := by
  obtain ⟨bad, hbad1, hbad2, hbad3, hbad4⟩ := reconcileLayers_missing
    (a.blobFiles.image joinBlobs) (MainPy.read_layers_from_manifest old.manifest)
    old.files item0 (fun l _ hlo => holdf l hlo) ⟨b, hb, hbext, hbold⟩
  have hres : MainPy.process_image (some a) old = .irreconcilable bad := by
    rw [MainPy.process_image_eq a old hp item0 rest hm, hbad4]
  exact ⟨⟨bad, hres⟩, by rw [hres]; rfl⟩

/-- Archive for the claim C4 witness: the manifest requires layer `m`,
nothing else exists. -/
def c4wArchive : DiffArchive :=
  { blobFiles := ∅, manifest := [["blobs/sha256/m"]], manifestPresent := true,
    diffAdded := [], diffJsonPresent := false }

/-- Claim C4 witness: on a concrete irreconcilable input, `main.py`'s
reconstruction fails and writes nothing. -/
theorem c4_main_missing_layer_is_fatal_witness :
    (∃ bad, MainPy.process_image (some c4wArchive) c4Old = .irreconcilable bad) ∧
    releaseWrite (MainPy.process_image (some c4wArchive) c4Old) = none :=
  c4_main_missing_layer_is_fatal c4wArchive c4Old ["blobs/sha256/m"] [] "blobs/sha256/m"
    (by decide) (by decide) (by decide) (by decide) (by decide) (by decide)

/-- Archive for the claim C6 counterexample: the manifest requires layer
`z`, which the old version's manifest also lists. -/
def c6Archive : DiffArchive :=
  { blobFiles := ∅, manifest := [["blobs/sha256/z"]], manifestPresent := true,
    diffAdded := [], diffJsonPresent := false }

/-- Old baseline for the claim C6 counterexample: its manifest lists `z`
but the blob file is physically absent, so `shutil.copy` raises. -/
def c6Old : ImageTree :=
  { manifest := [["blobs/sha256/z"]], blobFiles := ∅, files := ∅ }

/-- First worklist entry for the claim C6 counterexample. -/
def c6e1 : Entry := ⟨some "img1", some "r1", some "r2"⟩

/-- Second worklist entry for the claim C6 counterexample. -/
def c6e2 : Entry := ⟨some "img2", some "r1", some "r2"⟩

/-- Claim C6 counterexample: an error while processing one entry CAN abort
the whole run.  Processing the first (well-formed) entry raises an uncaught
exception — `main.py`'s worklist loop wraps the per-entry call in no
try/except — and the second entry is never processed. -/
theorem c6_counterexample_exception_aborts_run :
    c6e1.valid = true ∧ c6e2.valid = true
    ∧ MainPy.process_image (some c6Archive) c6Old = .ioError
    ∧ classifyApply (MainPy.process_image (some c6Archive) c6Old) = .fatal
    ∧ runEntries (fun _ => classifyApply (MainPy.process_image (some c6Archive) c6Old))
        [c6e1, c6e2] = [c6e1]
    ∧ c6e2 ∉ runEntries (fun _ => classifyApply (MainPy.process_image (some c6Archive) c6Old))
        [c6e1, c6e2] := by decide

/-- Claim C6 (amended): errors the per-entry code handles itself (missing
configuration fields, and every `return` path of the processing functions)
never abort the run: when no entry's processing ends fatally (no uncaught
exception, no `sys.exit`), the driver processes every well-formed entry of
the worklist. -/
theorem c6_handled_errors_do_not_abort (p : Entry → EntryOutcome) (es : List Entry)
    (h : ∀ e ∈ es, p e ≠ .fatal) :
    runEntries p es = es.filter (fun e => e.valid) := by
  induction es with
  | nil => rfl
  | cons e rest ih =>
    have hrest := ih (fun x hx => h x (by simp [hx]))
    by_cases hv : e.valid
    · cases hp : p e with
      | fatal => exact absurd hp (h e (by simp))
      | ok => simp [runEntries, hv, hp, hrest, List.filter_cons]
      | handled => simp [runEntries, hv, hp, hrest, List.filter_cons]
    · simp [runEntries, hv, hrest, List.filter_cons]

/-- Claim C6 witness: a run over a malformed entry and two well-formed
entries whose processing returns normally or with a handled error processes
both well-formed entries. -/
theorem c6_handled_errors_do_not_abort_witness :
    runEntries (fun e => if e.image = some "good" then .ok else .handled)
      [⟨some "good", some "r1", some "r2"⟩, ⟨none, some "r1", some "r2"⟩,
        ⟨some "other", some "r1", some "r2"⟩] =
      ([⟨some "good", some "r1", some "r2"⟩, ⟨none, some "r1", some "r2"⟩,
        ⟨some "other", some "r1", some "r2"⟩] : List Entry).filter (fun e => e.valid) :=
  c6_handled_errors_do_not_abort
    (fun e => if e.image = some "good" then .ok else .handled)
    [⟨some "good", some "r1", some "r2"⟩, ⟨none, some "r1", some "r2"⟩,
      ⟨some "other", some "r1", some "r2"⟩]
    (by decide)

/-- Old version for the claim C7 counterexample (successful build). -/
def c7Old : ImageTree := { manifest := [], blobFiles := ∅, files := ∅ }

/-- New version for the claim C7 counterexample: one layer `y`, physically
present. -/
def c7New : ImageTree :=
  { manifest := [["blobs/sha256/y"]], blobFiles := {"y"}, files := {"blobs/sha256/y"} }

/-- Claim C7 counterexample: a successful `main.py` archive build creates
the tar DIRECTLY at the final output path — its operation trace contains the
direct final-path creation and no scratch-to-final rename — so the archive
is not assembled in scratch and atomically moved into place as claimed. -/
theorem c7_counterexample_no_atomic_rename :
    (MainPy.generate_diff c7Old c7New ["blobs/sha256/y"]).succeeded = true
    ∧ FsOp.createTarAtFinal ∈ (MainPy.generate_diff c7Old c7New ["blobs/sha256/y"]).ops
    ∧ FsOp.renameToFinal ∉ (MainPy.generate_diff c7Old c7New ["blobs/sha256/y"]).ops := by
  decide

/-- Claim C7 (amended): when the `main.py` archive build fails because an
added layer resolves to no blob in the new export tree, the failure happens
during the scratch copy loop, before anything touches the final archive
path: the build outcome is the copy failure, and the operation trace
contains neither a final-path tar creation nor a rename.  (On success,
however, the tar is created directly at the final path, per the
counterexample: there is no scratch-then-atomic-rename step.) -/
theorem c7_failed_build_touches_no_final_path (old new : ImageTree)
    (addedEnum : List String)
    (hbad : ∃ l ∈ addedEnum, l ∉ new.files) :
    (∃ b, (MainPy.generate_diff old new addedEnum).outcome = .copyFailed b) ∧
    FsOp.createTarAtFinal ∉ (MainPy.generate_diff old new addedEnum).ops ∧
    FsOp.renameToFinal ∉ (MainPy.generate_diff old new addedEnum).ops := by
  obtain ⟨b, hb⟩ := copyAddedBlobs_fails new.files addedEnum hbad
  have hops : (MainPy.generate_diff old new addedEnum).ops =
      (copyAddedBlobs new.files addedEnum).1 := by
    simp only [MainPy.generate_diff, hb]
  have hout : (MainPy.generate_diff old new addedEnum).outcome = .copyFailed b := by
    simp only [MainPy.generate_diff, hb]
  refine ⟨⟨b, hout⟩, ?_, ?_⟩ <;> rw [hops] <;> intro hmem <;>
    obtain ⟨l, hl⟩ := copyAddedBlobs_ops_are_copies new.files addedEnum _ hmem <;>
    cases hl

/-- New version for the claim C7 witness: the manifest lists layer `x` but
no blob file exists in the export tree, so the added-blob copy raises. -/
def c7wNew : ImageTree :=
  { manifest := [["blobs/sha256/x"]], blobFiles := ∅, files := ∅ }

/-- Claim C7 witness: a concrete failing build ends in the copy failure and
its trace never touches the final archive path. -/
theorem c7_failed_build_touches_no_final_path_witness :
    (∃ b, (MainPy.generate_diff c7Old c7wNew ["blobs/sha256/x"]).outcome = .copyFailed b) ∧
    FsOp.createTarAtFinal ∉ (MainPy.generate_diff c7Old c7wNew ["blobs/sha256/x"]).ops ∧
    FsOp.renameToFinal ∉ (MainPy.generate_diff c7Old c7wNew ["blobs/sha256/x"]).ops :=
  c7_failed_build_touches_no_final_path c7Old c7wNew ["blobs/sha256/x"] (by decide)

/-- Claim C8: an apply-mode entry whose deterministic diff tar path does not
exist makes `process_image` log and return normally (the `missingArchive`
outcome, in both the `main.py` and `utils.py` variants), with no release
write, and the driver goes on to the remaining entries. -/
theorem c8_missing_diff_tar_skips_entry (old : ImageTree) (p : Entry → EntryOutcome)
    (e : Entry) (rest : List Entry)
    (hv : e.valid = true)
    (hp : p e = classifyApply (MainPy.process_image none old)) :
    MainPy.process_image none old = .missingArchive ∧
    Utils.process_image none old = .missingArchive ∧
    releaseWrite (MainPy.process_image none old) = none ∧
    releaseWrite (Utils.process_image none old) = none ∧
    runEntries p (e :: rest) = e :: runEntries p rest := by
  refine ⟨rfl, rfl, rfl, rfl, ?_⟩
  have hp' : p e = .handled := hp
  simp [runEntries, hv, hp']

/-- Old tree for the claim C8 witness. -/
def c8wOld : ImageTree := { manifest := [], blobFiles := ∅, files := ∅ }

/-- Worklist entry for the claim C8 witness. -/
def c8wEntry : Entry := ⟨some "img", some "r1", some "r2"⟩

/-- Claim C8 witness: concrete missing-archive entry followed by another
entry; the first returns the handled outcome and the run continues. -/
theorem c8_missing_diff_tar_skips_entry_witness :
    MainPy.process_image none c8wOld = .missingArchive ∧
    Utils.process_image none c8wOld = .missingArchive ∧
    releaseWrite (MainPy.process_image none c8wOld) = none ∧
    releaseWrite (Utils.process_image none c8wOld) = none ∧
    runEntries (fun _ => EntryOutcome.handled) [c8wEntry, c8wEntry] =
      c8wEntry :: runEntries (fun _ => EntryOutcome.handled) [c8wEntry] :=
  c8_missing_diff_tar_skips_entry c8wOld (fun _ => EntryOutcome.handled) c8wEntry
    [c8wEntry] (by decide) (by decide)
